import Mathlib

/-!
Verification of the QGroundControl parameter subsystem excerpt:
`src/FirmwarePlugin/PX4/PX4ParameterMetaData.cc` (metadata loading and
raw-value conversion) and the `ParameterLoader` synchronization engine.
Only the ParameterLoader header is present in the excerpt, so the engine's
operations are modelled from the specification; the PX4 metadata code is
embedded directly from the source.

Machine values are modelled as `Int` with explicit range checks (mirroring
the 32-bit `QVariant` conversion classes); numeric text is modelled as
signed decimal integer strings, the fragment of `QString` number parsing
that the claims depend on.  Floating point values are out of scope.
-/

namespace QGC

/-- First-match association-list lookup, modelling `QMap::contains`/`value`. -/
def assocLookup {α β : Type} [DecidableEq α] : List (α × β) → α → Option β
  | [], _ => none
  | (a, b) :: rest, k => if a = k then some b else assocLookup rest k

/-- Association-list overwrite, modelling `QMap::operator[]= ` (replace the
existing entry for the key, otherwise append a new entry). -/
def assocSet {α β : Type} [DecidableEq α] : List (α × β) → α → β → List (α × β)
  | [], k, v => [(k, v)]
  | (a, b) :: rest, k, v => if a = k then (k, v) :: rest else (a, b) :: assocSet rest k v

/-- Decimal digit value of a character, `none` for a non-digit. -/
def digitVal (c : Char) : Option Nat :=
  if 48 ≤ c.toNat ∧ c.toNat ≤ 57 then some (c.toNat - 48) else none

/-- Character for a decimal digit. -/
def digitChar (d : Nat) : Char := Char.ofNat (48 + d)

/-- Accumulating decimal parse of a digit list, most significant digit first. -/
def parseDigitsAcc : List Char → Nat → Option Nat
  | [], acc => some acc
  | c :: cs, acc =>
    match digitVal c with
    | some d => parseDigitsAcc cs (acc * 10 + d)
    | none => none

/-- Parse a nonempty unsigned decimal digit list (model of `QString::toUInt`
before the range check; fails on the empty string and on any non-digit). -/
def parseNatChars (cs : List Char) : Option Nat :=
  if cs.isEmpty then none else parseDigitsAcc cs 0

/-- Parse a signed decimal integer string (model of the `QString` number
parsing underlying `QVariant::convert`, restricted to integer literals). -/
def parseIntStr (s : String) : Option Int :=
  match s.data with
  | [] => none
  | c :: cs =>
    if c = '-' then (parseNatChars cs).map (fun n => -(n : Int))
    else (parseNatChars (c :: cs)).map (fun n => (n : Int))

/-- Little-endian decimal digits of a natural number. -/
def natToRevDigits : Nat → List Char
  | 0 => []
  | n + 1 => digitChar ((n + 1) % 10) :: natToRevDigits ((n + 1) / 10)
decreasing_by exact Nat.div_lt_self (Nat.succ_pos n) (by norm_num)

/-- Decimal rendering of a natural number. -/
def natToStr (n : Nat) : String :=
  if n = 0 then "0" else String.mk (natToRevDigits n).reverse

/-- Decimal rendering of an integer (model of the textual form in which the
mirror serializes raw values). -/
def intToStr (v : Int) : String :=
  if v < 0 then "-" ++ natToStr v.natAbs else natToStr v.natAbs

/-- The scalar value types of `FactMetaData::ValueType_t`. -/
inductive ValueType where
  | uint8 | int8 | uint16 | int16 | uint32 | int32 | float | double
deriving DecidableEq

/-- The `QVariant` conversion targets used by `_stringToTypedVariant`. -/
inductive QVariantClass where
  | uintClass | intClass | floatClass | doubleClass
deriving DecidableEq

/-- The switch of `PX4ParameterMetaData::_stringToTypedVariant` (source lines
56-74): every unsigned width converts to the 32-bit UInt class, every signed
width to the 32-bit Int class. -/
def convertTarget : ValueType → QVariantClass
  | .uint8 => .uintClass
  | .uint16 => .uintClass
  | .uint32 => .uintClass
  | .int8 => .intClass
  | .int16 => .intClass
  | .int32 => .intClass
  | .float => .floatClass
  | .double => .doubleClass

/-- Model of `QVariant(string).convert(target)`: parse the decimal literal and
check it fits the 32-bit class (`QString::toUInt` rejects signs and overflow,
`QString::toInt` rejects values outside the 32-bit signed range); on failure
no value is produced. -/
def qvariantConvert (cls : QVariantClass) (s : String) : Option Int :=
  match parseIntStr s with
  | none => none
  | some v =>
    match cls with
    | .uintClass => if 0 ≤ v ∧ v < 4294967296 then some v else none
    | .intClass => if -2147483648 ≤ v ∧ v < 2147483648 then some v else none
    | .floatClass => some v
    | .doubleClass => some v

/-- `PX4ParameterMetaData::_stringToTypedVariant` (source lines 52-79): convert
the string to the `QVariant` class selected by the declared type; `none`
models `convertOk = false`. -/
def stringToTypedVariant (s : String) (t : ValueType) : Option Int :=
  qvariantConvert (convertTarget t) s

/-- The representable range of the declared scalar type itself, as the spec's
words "a value outside the type's range" read. -/
def typeRangeOk : ValueType → Int → Bool
  | .uint8, v => decide (0 ≤ v ∧ v ≤ 255)
  | .int8, v => decide (-128 ≤ v ∧ v ≤ 127)
  | .uint16, v => decide (0 ≤ v ∧ v ≤ 65535)
  | .int16, v => decide (-32768 ≤ v ∧ v ≤ 32767)
  | .uint32, v => decide (0 ≤ v ∧ v ≤ 4294967295)
  | .int32, v => decide (-2147483648 ≤ v ∧ v ≤ 2147483647)
  | .float, _ => true
  | .double, _ => true

/-- The range actually enforced by the `QVariant` conversion class. -/
def classRangeOk : QVariantClass → Int → Bool
  | .uintClass, v => decide (0 ≤ v ∧ v < 4294967296)
  | .intClass, v => decide (-2147483648 ≤ v ∧ v < 2147483648)
  | .floatClass, _ => true
  | .doubleClass, _ => true

/-- The per-parameter metadata record built by the XML loader, with the fields
touched by `PX4ParameterMetaData::_loadParameterFactMetaData`.  Numeric
payloads (min, max, enum codes, default) are modelled as `Int`. -/
structure FactMetaData where
  ftype : ValueType
  name : String
  group : String
  shortDescription : String
  longDescription : String
  rawMin : Option Int
  rawMax : Option Int
  rawUnits : String
  decimalPlaces : Option Int
  rebootRequired : Bool
  enumInfo : List (String × Int)
  rawDefaultValue : Option Int
deriving DecidableEq

/-- A freshly default-constructed metadata object, `new FactMetaData(type)`:
only the value type is set, everything else is the permissive default. -/
def FactMetaData.mkDefault (t : ValueType) : FactMetaData :=
  { ftype := t, name := "", group := "", shortDescription := "", longDescription := ""
    rawMin := none, rawMax := none, rawUnits := "", decimalPlaces := none
    rebootRequired := false, enumInfo := [], rawDefaultValue := none }

/-- The `XmlState...` parser-progress enumeration of the loader. -/
inductive XmlState where
  | stateNone | foundParameters | foundVersion | foundGroup | foundParameter
deriving DecidableEq

/-- One token of the XML stream as the loader's loop observes it: a start
element with its attributes and (for leaf elements) the text that
`readElementText` would return, or an end element.  Character tokens and the
end elements of leaf elements change no loader state whether or not
`readElementText` consumed them, so representing both events uniformly is
state-equivalent to `QXmlStreamReader`. -/
inductive XmlEvent where
  | startElem (elementName : String) (attributes : List (String × String)) (text : String)
  | endElem (elementName : String)

/-- The local state of `_loadParameterFactMetaData`'s parse loop (source lines
129-133) plus the static name-to-metadata map it fills.  The C++ `metaData`
pointer aliases the map entry it was stored into, so it is modelled as the
name of the in-progress entry (`currentName`). -/
structure LoadState where
  factGroup : String
  currentName : Option String
  xmlState : XmlState
  badMetaData : Bool
  map : List (String × FactMetaData)
deriving DecidableEq

/-- Result of one loop iteration: continue with the next token, or return
early from the load (an early `return` keeps the map filled so far). -/
inductive StepResult where
  | next (s : LoadState)
  | stop (s : LoadState)
deriving DecidableEq

/-- Signature of `FactMetaData::convertAndValidateRaw` (defined outside the
excerpt): convert a raw string for the given metadata, `Bool` = convertOnly,
`none` = failure.  The loader is parametrized over it. -/
def ConvFun : Type := FactMetaData → Bool → String → Option Int

/-- The metadata sub-element dispatch of the loader (source lines 241-328),
applied to the in-progress metadata object when `badMetaData` is false. -/
def applySubElement (conv : ConvFun) (elementName : String)
    (attributes : List (String × String)) (text : String) (md : FactMetaData) :
    FactMetaData :=
  if elementName = "short_desc" then
    { md with shortDescription := text.replace "\n" " " }
  else if elementName = "long_desc" then
    { md with longDescription := text.replace "\n" " " }
  else if elementName = "min" then
    match conv md true text with
    | some v => { md with rawMin := some v }
    | none => md
  else if elementName = "max" then
    match conv md true text with
    | some v => { md with rawMax := some v }
    | none => md
  else if elementName = "unit" then
    { md with rawUnits := text }
  else if elementName = "decimal" then
    match parseNatChars text.data with
    | some d => if d < 4294967296 then { md with decimalPlaces := some (Int.ofNat d) } else md
    | none => md
  else if elementName = "reboot_required" then
    if text.toLower = "true" then { md with rebootRequired := true } else md
  else if elementName = "values" then md
  else if elementName = "value" then
    match conv md false ((assocLookup attributes "code").getD "") with
    | some v => { md with enumInfo := md.enumInfo ++ [(text, v)] }
    | none => md
  else md

/-- One iteration of the `_loadParameterFactMetaData` parse loop (source lines
135-354), parametrized over `FactMetaData::stringToType` and
`convertAndValidateRaw` which live outside the excerpt. -/
def loadStep (strToType : String → Option ValueType) (conv : ConvFun)
    (s : LoadState) (e : XmlEvent) : StepResult :=
  match e with
  | .startElem elementName attributes text =>
    if elementName = "parameters" then
      if s.xmlState ≠ XmlState.stateNone then .stop s
      else .next { s with xmlState := .foundParameters }
    else if elementName = "version" then
      if s.xmlState ≠ XmlState.foundParameters then .stop s
      else
        let s1 := { s with xmlState := XmlState.foundVersion }
        match parseIntStr text with
        | none => .stop s1
        | some v => if v ≤ 2 then .stop s1 else .next s1
    else if elementName = "group" then
      if s.xmlState ≠ XmlState.foundVersion then .stop s
      else
        let s1 := { s with xmlState := XmlState.foundGroup }
        if (assocLookup attributes "name").isSome then
          .next { s1 with factGroup := (assocLookup attributes "name").getD "" }
        else .stop s1
    else if elementName = "parameter" then
      if s.xmlState ≠ XmlState.foundGroup then .stop s
      else
        let s1 := { s with xmlState := XmlState.foundParameter }
        if (assocLookup attributes "name").isSome ∧ (assocLookup attributes "type").isSome then
          let pname := (assocLookup attributes "name").getD ""
          let ptypeStr := (assocLookup attributes "type").getD ""
          let strDefault := (assocLookup attributes "default").getD ""
          match strToType ptypeStr with
          | none => .stop s1
          | some foundType =>
            let fresh := FactMetaData.mkDefault foundType
            if (assocLookup s1.map pname).isSome then
              .next { s1 with badMetaData := true
                              map := assocSet s1.map pname fresh
                              currentName := some pname }
            else
              let md0 := { fresh with name := pname, group := s1.factGroup }
              let md1 :=
                if (assocLookup attributes "default").isSome ∧ strDefault ≠ "" then
                  match conv md0 false strDefault with
                  | some v => { md0 with rawDefaultValue := some v }
                  | none => md0
                else md0
              .next { s1 with map := assocSet s1.map pname md1, currentName := some pname }
        else .stop s1
    else
      if s.xmlState ≠ XmlState.foundParameter then .stop s
      else if s.badMetaData then .next s
      else
        match s.currentName with
        | none => .next s
        | some n =>
          match assocLookup s.map n with
          | none => .next s
          | some md =>
            .next { s with map := assocSet s.map n (applySubElement conv elementName attributes text md) }
  | .endElem elementName =>
    if elementName = "parameter" then
      .next { s with currentName := none, badMetaData := false, xmlState := XmlState.foundGroup }
    else if elementName = "group" then
      .next { s with xmlState := XmlState.foundVersion }
    else if elementName = "parameters" then
      .next { s with xmlState := XmlState.foundParameters }
    else .next s

/-- Run the parse loop over a token stream, stopping at an early return. -/
def loadRun (strToType : String → Option ValueType) (conv : ConvFun) :
    LoadState → List XmlEvent → LoadState
  | s, [] => s
  | s, e :: rest =>
    match loadStep strToType conv s e with
    | .next s1 => loadRun strToType conv s1 rest
    | .stop s1 => s1

/-- Loop-entry state of the loader: `badMetaData` starts `true` (source line
133), no group, no in-progress metadata, over the given (static) map. -/
def initLoadState (m : List (String × FactMetaData)) : LoadState :=
  { factGroup := "", currentName := none, xmlState := .stateNone, badMetaData := true, map := m }

/-- The process-wide static state of `PX4ParameterMetaData`: the loaded flag
and the name-to-metadata map (source lines 38-39). -/
structure MetaState where
  parameterMetaDataLoaded : Bool
  mapParameterName2FactMetaData : List (String × FactMetaData)
deriving DecidableEq

/-- `PX4ParameterMetaData::_loadParameterFactMetaData` at the top level
(source lines 91-96 and the parse loop): return immediately when already
loaded, otherwise set the flag and run the parse over the file's tokens. -/
def loadParameterFactMetaData (strToType : String → Option ValueType) (conv : ConvFun)
    (xml : List XmlEvent) (st : MetaState) : MetaState :=
  if st.parameterMetaDataLoaded then st
  else
    { parameterMetaDataLoaded := true
      mapParameterName2FactMetaData :=
        (loadRun strToType conv (initLoadState st.mapParameterName2FactMetaData) xml).map }

/-- The slice of a `Fact` that `addMetaDataToFact` reads and writes: its name,
its value type, and the attached metadata. -/
structure Fact where
  name : String
  ftype : ValueType
  metaData : Option FactMetaData
deriving DecidableEq

/-- `PX4ParameterMetaData::addMetaDataToFact` (source lines 358-370): load the
metadata lazily, then attach the loaded entry for the fact's name, or a new
generic metadata object built from the fact's own type. -/
def addMetaDataToFact (strToType : String → Option ValueType) (conv : ConvFun)
    (xml : List XmlEvent) (st : MetaState) (fact : Fact) : MetaState × Fact :=
  let st1 := loadParameterFactMetaData strToType conv xml st
  match assocLookup st1.mapParameterName2FactMetaData fact.name with
  | some md => (st1, { fact with metaData := some md })
  | none => (st1, { fact with metaData := some (FactMetaData.mkDefault fact.ftype) })

/-- `ParameterLoader::_maxInitialLoadRetry` (header line 146): the maximum
number of retries on the initial index based load. -/
def maxInitialLoadRetry : Nat := 10

/-- The bookkeeping state of the `ParameterLoader` synchronization engine, per
the header's members (lines 140-154): per-component expected counts, resolved
indices, the three waiting maps carrying retry counts, the failed index set,
the initial-load-complete latch and the log of emitted `parametersReady`
signals.  Per-component maps are total functions defaulting to empty. -/
structure EngineState where
  componentIds : List Nat
  paramCountMap : Nat → Option Nat
  resolvedIndexMap : Nat → List Nat
  waitingReadParamIndexMap : Nat → List (Nat × Nat)
  waitingReadParamNameMap : Nat → List (String × Nat)
  waitingWriteParamNameMap : Nat → List (String × Nat)
  failedReadParamIndexMap : Nat → List Nat
  initialLoadComplete : Bool
  signalLog : List Bool

/-- Modelled from the spec: the recurring waiting-parameter timeout
(`ParameterLoader::_waitingParamTimeout`, not in the excerpt).  For every
still-pending read or write the retry count is incremented (and the request
re-issued); entries whose retry count exceeds the retry budget are moved out
of the pending map — index reads join the failed index set, name reads and
writes are abandoned. -/
def waitingParamTimeout (s : EngineState) : EngineState :=
  { s with
    waitingReadParamIndexMap := fun c =>
      ((s.waitingReadParamIndexMap c).map (fun e => (e.1, e.2 + 1))).filter
        (fun e => decide (e.2 ≤ maxInitialLoadRetry))
    failedReadParamIndexMap := fun c =>
      s.failedReadParamIndexMap c ++
        ((((s.waitingReadParamIndexMap c).map (fun e => (e.1, e.2 + 1))).filter
          (fun e => decide (maxInitialLoadRetry < e.2))).map Prod.fst)
    waitingReadParamNameMap := fun c =>
      ((s.waitingReadParamNameMap c).map (fun e => (e.1, e.2 + 1))).filter
        (fun e => decide (e.2 ≤ maxInitialLoadRetry))
    waitingWriteParamNameMap := fun c =>
      ((s.waitingWriteParamNameMap c).map (fun e => (e.1, e.2 + 1))).filter
        (fun e => decide (e.2 ≤ maxInitialLoadRetry)) }

/-- True when some component has recorded failed (given-up) indices. -/
def anyFailedIndex (s : EngineState) : Bool :=
  s.componentIds.any (fun c => decide (s.failedReadParamIndexMap c ≠ []))

/-- Modelled from the spec: `ParameterLoader::_checkInitialLoadComplete` (not
in the excerpt).  Runs after every state-affecting event; when the initial
load has not yet been declared complete and no index read is still pending for
any component, it latches completion and emits the `parametersReady` signal
exactly once, carrying the missing-parameters flag (true iff some failed
index exists). -/
def checkInitialLoadComplete (s : EngineState) : EngineState :=
  if s.initialLoadComplete then s
  else if s.componentIds.all (fun c => decide (s.waitingReadParamIndexMap c = [])) then
    { s with initialLoadComplete := true, signalLog := s.signalLog ++ [anyFailedIndex s] }
  else s

/-- Insert a value into a list if absent (set-like insert keeping order). -/
def insertIfAbsent (i : Nat) (l : List Nat) : List Nat :=
  if i ∈ l then l else l ++ [i]

/-- Modelled from the spec: `ParameterLoader::_parameterUpdate` (not in the
excerpt) for an inbound parameter notification carrying (componentId, index,
component count).  On the first notification for a component the expected
count is recorded and all other unresolved indices become pending index reads
with retry count zero; afterwards a notification resolves its index, removing
it from the pending and failed sets (spontaneous reports are accepted as
already resolved). -/
def parameterUpdate (componentId index count : Nat) (s : EngineState) : EngineState :=
  match s.paramCountMap componentId with
  | none =>
    if index < count then
      { s with
        componentIds :=
          if componentId ∈ s.componentIds then s.componentIds
          else s.componentIds ++ [componentId]
        paramCountMap := fun c => if c = componentId then some count else s.paramCountMap c
        resolvedIndexMap := fun c =>
          if c = componentId then insertIfAbsent index (s.resolvedIndexMap c)
          else s.resolvedIndexMap c
        waitingReadParamIndexMap := fun c =>
          if c = componentId then
            ((List.range count).filter
              (fun i => decide (i ≠ index) && decide (i ∉ s.resolvedIndexMap componentId))).map
              (fun i => (i, 0))
          else s.waitingReadParamIndexMap c }
    else s
  | some _ =>
    { s with
      resolvedIndexMap := fun c =>
        if c = componentId then insertIfAbsent index (s.resolvedIndexMap c)
        else s.resolvedIndexMap c
      waitingReadParamIndexMap := fun c =>
        if c = componentId then
          (s.waitingReadParamIndexMap c).filter (fun e => decide (e.1 ≠ index))
        else s.waitingReadParamIndexMap c
      failedReadParamIndexMap := fun c =>
        if c = componentId then
          (s.failedReadParamIndexMap c).filter (fun i => decide (i ≠ index))
        else s.failedReadParamIndexMap c }

/-- Modelled from the spec: `ParameterLoader::refreshAllParameters` (not in
the excerpt) over the full scope.  Clears pending and failed state and the
recorded counts, re-enters BulkLoading, and re-arms the readiness signal by
resetting the completion latch; already-resolved values stay in the mirror. -/
def refreshAllParameters (s : EngineState) : EngineState :=
  { s with
    paramCountMap := fun _ => none
    waitingReadParamIndexMap := fun _ => []
    waitingReadParamNameMap := fun _ => []
    waitingWriteParamNameMap := fun _ => []
    failedReadParamIndexMap := fun _ => []
    initialLoadComplete := false }

/-- The asynchronous events the engine's owner loop dispatches during a load
epoch: an inbound parameter notification or a waiting-parameter timeout
tick. -/
inductive EngineEvent where
  | paramUpdate (componentId index count : Nat)
  | waitingTimeout

/-- Modelled from the spec: dispatch one event and run the completion check
after it ("Completion check runs after every state-affecting event"). -/
def engineStep (s : EngineState) (e : EngineEvent) : EngineState :=
  match e with
  | .paramUpdate c i cnt => checkInitialLoadComplete (parameterUpdate c i cnt s)
  | .waitingTimeout => checkInitialLoadComplete (waitingParamTimeout s)

/-- Run a sequence of engine events. -/
def runEvents (s : EngineState) (es : List EngineEvent) : EngineState :=
  es.foldl engineStep s

/-- Per-component bookkeeping soundness: for every component whose expected
count is known, resolved, pending-index and failed entries account for the
whole enumeration. -/
def sumInvariant (s : EngineState) : Prop :=
  ∀ c cnt, s.paramCountMap c = some cnt →
    (s.resolvedIndexMap c).length + (s.waitingReadParamIndexMap c).length +
      (s.failedReadParamIndexMap c).length = cnt

/-- One (componentId, name, value) triple of the parameter mirror. -/
structure ParamRecord where
  componentId : Nat
  name : String
  ptype : ValueType
  value : Int
deriving DecidableEq

/-- One line of the human-readable serialization: component id, name, type and
the textual raw value. -/
structure ParamLine where
  componentId : Nat
  name : String
  ptype : ValueType
  valueStr : String
deriving DecidableEq

/-- Modelled from the spec: `ParameterLoader::writeParametersToStream` (not in
the excerpt) — one line per parameter of the mirror, encoding component id,
name, type, and value. -/
def writeParametersToStream (mirror : List ParamRecord) : List ParamLine :=
  mirror.map (fun r => { componentId := r.componentId, name := r.name, ptype := r.ptype
                         valueStr := intToStr r.value })

/-- The per-line rejection message of the import. -/
def importErrorLine (name : String) : String :=
  "Unable to set parameter " ++ name ++ "\n"

/-- One line of the import: validate through the write path's conversion
(`_stringToTypedVariant`); apply an accepted value, report a rejected one. -/
def importStep (acc : List ParamRecord × String) (ln : ParamLine) :
    List ParamRecord × String :=
  match stringToTypedVariant ln.valueStr ln.ptype with
  | some v =>
    (acc.1 ++ [{ componentId := ln.componentId, name := ln.name, ptype := ln.ptype
                 value := v }], acc.2)
  | none => (acc.1, acc.2 ++ importErrorLine ln.name)

/-- Modelled from the spec: `ParameterLoader::readParametersFromStream` (not
in the excerpt) — apply each line back through the write path's validation
(`_stringToTypedVariant`); a rejected line is reported in the combined error
string and does not abort the import of the remaining lines. -/
def readParametersFromStream (lines : List ParamLine) : List ParamRecord × String :=
  lines.foldl importStep ([], "")

/-- Concatenation of a list of strings, the combined error report. -/
def concatStrings (l : List String) : String :=
  l.foldl (fun a b => a ++ b) ""

/-- Whether a mirror record survives the write path's validation. -/
def recordAccepted (r : ParamRecord) : Bool :=
  classRangeOk (convertTarget r.ptype) r.value

/-- The live-fact store consulted by `parameterExists`/`getFact`: the default
component id and one live fact per (componentId, name) key, with its raw
value. -/
structure FactStore where
  defaultComponentId : Nat
  facts : List ((Nat × String) × Int)

/-- `ParameterLoader::_actualComponentId`: -1 selects the default component. -/
def actualComponentId (st : FactStore) (componentId : Int) : Nat :=
  if componentId = -1 then st.defaultComponentId else componentId.toNat

/-- Modelled from the spec: `ParameterLoader::parameterExists` (declaration at
header lines 72-73) — pure lookup, true iff a confirmed entry exists for the
key, falling back to the default component for id -1. -/
def parameterExists (st : FactStore) (componentId : Int) (name : String) : Bool :=
  (assocLookup st.facts (actualComponentId st componentId, name)).isSome

/-- Result of `getFact`: the live fact for the key, or the fatal assertion
that the programming contract was violated. -/
inductive GetFactResult where
  | fact (componentId : Nat) (name : String) (value : Int)
  | assertionFailed
deriving DecidableEq

/-- Modelled from the spec: `ParameterLoader::getFact` (declaration at header
lines 78-82, "WARNING: Will assert if parameter does not exists") — return
the live fact for the key; requesting a missing fact is a fatal assertion
failure, not a recoverable result. -/
def getFact (st : FactStore) (componentId : Int) (name : String) : GetFactResult :=
  match assocLookup st.facts (actualComponentId st componentId, name) with
  | some v => .fact (actualComponentId st componentId) name v
  | none => .assertionFailed

/-- Whether an XML token is a metadata sub-element token (neither a structural
start element nor the end of a parameter, group or document). -/
def isMetaDataSub : XmlEvent → Bool
  | .startElem n _ _ =>
    decide (n ≠ "parameters") && decide (n ≠ "version") && decide (n ≠ "group") &&
      decide (n ≠ "parameter")
  | .endElem n =>
    decide (n ≠ "parameter") && decide (n ≠ "group") && decide (n ≠ "parameters")

/-- A concrete mid-load engine state: component 1 expects 3 parameters,
indices 0 and 2 are resolved, index 1 is still pending at retry 9. -/
def sampleEngineState : EngineState :=
  { componentIds := [1]
    paramCountMap := fun c => if c = 1 then some 3 else none
    resolvedIndexMap := fun c => if c = 1 then [0, 2] else []
    waitingReadParamIndexMap := fun c => if c = 1 then [(1, 9)] else []
    waitingReadParamNameMap := fun _ => []
    waitingWriteParamNameMap := fun _ => []
    failedReadParamIndexMap := fun _ => []
    initialLoadComplete := false
    signalLog := [] }

/-- A concrete engine state with pending entries at and below the retry
budget in all three waiting maps. -/
def sampleTimeoutState : EngineState :=
  { componentIds := [1]
    paramCountMap := fun c => if c = 1 then some 3 else none
    resolvedIndexMap := fun _ => []
    waitingReadParamIndexMap := fun c => if c = 1 then [(0, 3), (1, 10)] else []
    waitingReadParamNameMap := fun c => if c = 1 then [("N", 2)] else []
    waitingWriteParamNameMap := fun c => if c = 1 then [("W", 10)] else []
    failedReadParamIndexMap := fun _ => []
    initialLoadComplete := false
    signalLog := [] }

/-- A concrete engine state with nothing pending and one failed index, right
before the completion check declares readiness. -/
def sampleDrainedState : EngineState :=
  { componentIds := [1]
    paramCountMap := fun c => if c = 1 then some 3 else none
    resolvedIndexMap := fun c => if c = 1 then [0, 2] else []
    waitingReadParamIndexMap := fun _ => []
    waitingReadParamNameMap := fun _ => []
    waitingWriteParamNameMap := fun _ => []
    failedReadParamIndexMap := fun c => if c = 1 then [1] else []
    initialLoadComplete := false
    signalLog := [] }

/-- The drained state after readiness has been declared. -/
def sampleReadyState : EngineState :=
  { sampleDrainedState with initialLoadComplete := true, signalLog := [true] }

/-- A concrete fact store: default component 1 owning parameter "SPEED". -/
def sampleFactStore : FactStore :=
  { defaultComponentId := 1, facts := [((1, "SPEED"), 12)] }

theorem assocLookup_assocSet_self {α β : Type} [DecidableEq α]
    (l : List (α × β)) (k : α) (v : β) : assocLookup (assocSet l k v) k = some v := by
  induction l with
  | nil => simp [assocLookup, assocSet]
  | cons hd tl ih =>
    obtain ⟨a, b⟩ := hd
    by_cases h : a = k
    · simp [assocLookup, assocSet, h]
    · simp [assocLookup, assocSet, h, ih]

theorem assocLookup_assocSet_ne {α β : Type} [DecidableEq α]
    (l : List (α × β)) (k m : α) (v : β) (h : m ≠ k) :
    assocLookup (assocSet l k v) m = assocLookup l m := by
  have hkm : k ≠ m := Ne.symm h
  induction l with
  | nil => simp [assocLookup, assocSet, hkm]
  | cons hd tl ih =>
    obtain ⟨a, b⟩ := hd
    by_cases ha : a = k
    · subst ha
      simp [assocLookup, assocSet, hkm]
    · simp [assocLookup, assocSet, ha, ih]

theorem parseDigitsAcc_append (xs ys : List Char) :
    ∀ acc, parseDigitsAcc (xs ++ ys) acc =
      match parseDigitsAcc xs acc with
      | some a => parseDigitsAcc ys a
      | none => none := by
  induction xs with
  | nil => intro acc; simp [parseDigitsAcc]
  | cons c cs ih =>
    intro acc
    simp only [List.cons_append, parseDigitsAcc]
    cases digitVal c with
    | none => simp
    | some d => simp [ih]

theorem digitVal_digitChar (d : Nat) (h : d < 10) : digitVal (digitChar d) = some d := by
  interval_cases d <;> decide

theorem parseDigitsAcc_revDigits :
    ∀ (n : Nat) (acc : Nat),
      parseDigitsAcc (natToRevDigits n).reverse acc =
        some (acc * 10 ^ (natToRevDigits n).length + n) := by
  intro n
  induction n using Nat.strong_induction_on with
  | _ n ih =>
    match n with
    | 0 => intro acc; simp [natToRevDigits, parseDigitsAcc]
    | m + 1 =>
      intro acc
      have hq : (m + 1) / 10 < m + 1 := Nat.div_lt_self (Nat.succ_pos m) (by norm_num)
      have hmod : (m + 1) % 10 < 10 := Nat.mod_lt _ (by norm_num)
      rw [show natToRevDigits (m + 1)
            = digitChar ((m + 1) % 10) :: natToRevDigits ((m + 1) / 10) by
          simp [natToRevDigits]]
      rw [List.reverse_cons, parseDigitsAcc_append]
      rw [ih ((m + 1) / 10) hq acc]
      simp only [parseDigitsAcc, digitVal_digitChar _ hmod, List.length_cons]
      have harith :
          (acc * 10 ^ (natToRevDigits ((m + 1) / 10)).length + (m + 1) / 10) * 10
              + (m + 1) % 10
            = acc * 10 ^ ((natToRevDigits ((m + 1) / 10)).length + 1) + (m + 1) := by
        have hdm := Nat.div_add_mod (m + 1) 10
        ring_nf
        omega
      rw [harith]

theorem mem_natToRevDigits_digit :
    ∀ (n : Nat) (c : Char), c ∈ natToRevDigits n → ∃ d, d < 10 ∧ digitVal c = some d := by
  intro n
  induction n using Nat.strong_induction_on with
  | _ n ih =>
    match n with
    | 0 => intro c hc; simp [natToRevDigits] at hc
    | m + 1 =>
      intro c hc
      have hq : (m + 1) / 10 < m + 1 := Nat.div_lt_self (Nat.succ_pos m) (by norm_num)
      have hmod : (m + 1) % 10 < 10 := Nat.mod_lt _ (by norm_num)
      rw [show natToRevDigits (m + 1)
            = digitChar ((m + 1) % 10) :: natToRevDigits ((m + 1) / 10) by
          simp [natToRevDigits]] at hc
      rcases List.mem_cons.mp hc with h | h
      · exact ⟨(m + 1) % 10, hmod, h ▸ digitVal_digitChar _ hmod⟩
      · exact ih _ hq c h

theorem natToRevDigits_ne_nil (n : Nat) (h : n ≠ 0) : natToRevDigits n ≠ [] := by
  match n with
  | 0 => exact absurd rfl h
  | m + 1 => simp [natToRevDigits]

theorem parseNatChars_natToStr (n : Nat) : parseNatChars (natToStr n).data = some n := by
  by_cases h : n = 0
  · subst h; decide
  · rw [show natToStr n = String.mk (natToRevDigits n).reverse by simp [natToStr, h]]
    have hne : (natToRevDigits n).reverse ≠ [] := by
      simpa using natToRevDigits_ne_nil n h
    rw [show (String.mk (natToRevDigits n).reverse).data = (natToRevDigits n).reverse from rfl]
    rw [show parseNatChars (natToRevDigits n).reverse
          = parseDigitsAcc (natToRevDigits n).reverse 0 by
        simp [parseNatChars, List.isEmpty_iff, hne]]
    rw [parseDigitsAcc_revDigits n 0]
    simp

theorem natToStr_head_digit (n : Nat) :
    ∃ c cs, (natToStr n).data = c :: cs ∧ ∃ d, d < 10 ∧ digitVal c = some d := by
  by_cases h : n = 0
  · subst h
    exact ⟨'0', [], rfl, 0, by norm_num, by decide⟩
  · rw [show natToStr n = String.mk (natToRevDigits n).reverse by simp [natToStr, h]]
    have hne : (natToRevDigits n).reverse ≠ [] := by
      simpa using natToRevDigits_ne_nil n h
    obtain ⟨c, cs, hcs⟩ := List.exists_cons_of_ne_nil hne
    refine ⟨c, cs, hcs, ?_⟩
    have hcmem : c ∈ natToRevDigits n := by
      have : c ∈ (natToRevDigits n).reverse := by rw [hcs]; exact List.mem_cons_self _ _
      simpa using this
    exact mem_natToRevDigits_digit n c hcmem

theorem parseIntStr_intToStr (v : Int) : parseIntStr (intToStr v) = some v := by
  by_cases hv : v < 0
  · rw [show intToStr v = "-" ++ natToStr v.natAbs by simp [intToStr, hv]]
    have hdata : ("-" ++ natToStr v.natAbs).data = '-' :: (natToStr v.natAbs).data := by
      rw [String.data_append]; rfl
    rw [show parseIntStr ("-" ++ natToStr v.natAbs)
          = (parseNatChars (natToStr v.natAbs).data).map (fun n => -(n : Int)) by
        unfold parseIntStr; rw [hdata]; simp]
    rw [parseNatChars_natToStr]
    have : ((v.natAbs : Nat) : Int) = -v := Int.ofNat_natAbs_of_nonpos (le_of_lt hv)
    simp [this]
  · rw [show intToStr v = natToStr v.natAbs by simp [intToStr, hv]]
    obtain ⟨c, cs, hcs, d, hd, hdv⟩ := natToStr_head_digit v.natAbs
    have hcne : c ≠ '-' := by
      intro hc
      rw [hc] at hdv
      simp [digitVal] at hdv
    rw [show parseIntStr (natToStr v.natAbs)
          = (parseNatChars (natToStr v.natAbs).data).map (fun n => (n : Int)) by
        unfold parseIntStr; rw [hcs]; simp [hcne]]
    rw [parseNatChars_natToStr]
    have : ((v.natAbs : Nat) : Int) = v := Int.natAbs_of_nonneg (not_lt.mp hv)
    simp [this]

/-- C8 counterexample: the claim "a value outside the type's range cannot be
converted, and the conversion reports failure" is false on the code: the
string "300" with declared type Uint8 is outside the type's range yet the
conversion of `_stringToTypedVariant` (which targets the 32-bit UInt class)
reports success. -/
theorem c8_out_of_range_counterexample :
    ¬ (∀ (s : String) (t : ValueType) (v : Int),
        parseIntStr s = some v → typeRangeOk t v = false →
          stringToTypedVariant s t = none) := by
  intro h
  have h3 := h "300" ValueType.uint8 300 (by decide) (by decide)
  exact absurd h3 (by decide)

/-- C8 (amended): the write-boundary conversion rejects exactly the raw
strings that do not convert to the 32-bit `QVariant` class selected for the
declared type (malformed literals, negative values for an unsigned type,
values outside the 32-bit class range); a rejected value yields a conversion
failure with no value produced, and an accepted value is passed through
exactly as parsed — never silently clamped.  Values inside the 32-bit class
but outside the narrower declared width are accepted unchanged. -/
theorem c8_conversion_rejects_never_clamps :
    (∀ (s : String) (t : ValueType), parseIntStr s = none →
        stringToTypedVariant s t = none)
  ∧ (∀ (s : String) (t : ValueType) (v : Int), parseIntStr s = some v →
        stringToTypedVariant s t =
          if classRangeOk (convertTarget t) v = true then some v else none)
  ∧ (∀ (s : String) (t : ValueType) (v : Int), stringToTypedVariant s t = some v →
        parseIntStr s = some v) := by
  refine ⟨?_, ?_, ?_⟩
  · intro s t h
    cases t <;> simp [stringToTypedVariant, qvariantConvert, convertTarget, h]
  · intro s t v h
    cases t <;> simp [stringToTypedVariant, qvariantConvert, convertTarget, h, classRangeOk]
  · intro s t v h
    unfold stringToTypedVariant qvariantConvert at h
    split at h
    · exact Option.noConfusion h
    · rename_i w hp
      split at h
      · split_ifs at h
        injection h with hh; rw [hh] at hp; exact hp
      · split_ifs at h
        injection h with hh; rw [hh] at hp; exact hp
      · injection h with hh; rw [hh] at hp; exact hp
      · injection h with hh; rw [hh] at hp; exact hp

/-- Concrete evaluation of `c8_conversion_rejects_never_clamps`: the
malformed string "1x" is rejected for every type, "-1" is rejected for the
unsigned type Uint8, and "12" converts to exactly 12 for Uint8. -/
theorem c8_conversion_witness :
    stringToTypedVariant "1x" ValueType.int32 = none
  ∧ stringToTypedVariant "-1" ValueType.uint8 = none
  ∧ stringToTypedVariant "12" ValueType.uint8 = some 12 := by
  refine ⟨?_, ?_, ?_⟩
  · exact c8_conversion_rejects_never_clamps.1 "1x" ValueType.int32 (by decide)
  · have h := c8_conversion_rejects_never_clamps.2.1 "-1" ValueType.uint8 (-1) (by decide)
    simpa using h
  · have h := c8_conversion_rejects_never_clamps.2.1 "12" ValueType.uint8 12 (by decide)
    simpa using h

/-- C6: for every fact passed to `addMetaDataToFact` a metadata object is
always attached — the loaded entry when the fact's name is present in the
loaded map, and otherwise a newly created generic metadata object derived
from the fact's own type, including when the loaded map is entirely empty. -/
theorem c6_addMetaDataToFact_always_attaches :
    (∀ (strToType : String → Option ValueType) (conv : ConvFun) (xml : List XmlEvent)
        (st : MetaState) (fact : Fact),
        ((addMetaDataToFact strToType conv xml st fact).2).metaData =
          some (match assocLookup
                (loadParameterFactMetaData strToType conv xml st).mapParameterName2FactMetaData
                fact.name with
              | some md => md
              | none => FactMetaData.mkDefault fact.ftype))
  ∧ (∀ (strToType : String → Option ValueType) (conv : ConvFun) (xml : List XmlEvent)
        (st : MetaState) (fact : Fact),
        (loadParameterFactMetaData strToType conv xml st).mapParameterName2FactMetaData = [] →
        ((addMetaDataToFact strToType conv xml st fact).2).metaData =
          some (FactMetaData.mkDefault fact.ftype)) := by
  constructor
  · intro strToType conv xml st fact
    cases hl : assocLookup
        (loadParameterFactMetaData strToType conv xml st).mapParameterName2FactMetaData
        fact.name <;>
      simp [addMetaDataToFact, hl]
  · intro strToType conv xml st fact hmap
    simp [addMetaDataToFact, hmap, assocLookup]

/-- Concrete evaluation of `c6_addMetaDataToFact_always_attaches` against an
entirely empty metadata provider: the fact still receives generic metadata
derived from its own type. -/
theorem c6_addMetaDataToFact_witness :
    ((addMetaDataToFact (fun _ => none) (fun _ _ _ => none) []
        { parameterMetaDataLoaded := true, mapParameterName2FactMetaData := [] }
        { name := "X", ftype := ValueType.uint8, metaData := none }).2).metaData =
      some (FactMetaData.mkDefault ValueType.uint8) :=
  c6_addMetaDataToFact_always_attaches.2 (fun _ => none) (fun _ _ _ => none) []
    { parameterMetaDataLoaded := true, mapParameterName2FactMetaData := [] }
    { name := "X", ftype := ValueType.uint8, metaData := none } rfl

/-- C7: metadata loading is lazy and idempotent — the attachment operation
triggers the load, a call on an already-loaded state returns immediately
without modifying the map, and loading twice leaves exactly the state of
loading once. -/
theorem c7_load_lazy_idempotent :
    (∀ (strToType : String → Option ValueType) (conv : ConvFun) (xml : List XmlEvent)
        (st : MetaState), st.parameterMetaDataLoaded = true →
        loadParameterFactMetaData strToType conv xml st = st)
  ∧ (∀ (strToType : String → Option ValueType) (conv : ConvFun) (xml : List XmlEvent)
        (st : MetaState),
        (loadParameterFactMetaData strToType conv xml st).parameterMetaDataLoaded = true)
  ∧ (∀ (strToType : String → Option ValueType) (conv : ConvFun) (xml : List XmlEvent)
        (st : MetaState),
        loadParameterFactMetaData strToType conv xml
            (loadParameterFactMetaData strToType conv xml st)
          = loadParameterFactMetaData strToType conv xml st)
  ∧ (∀ (strToType : String → Option ValueType) (conv : ConvFun) (xml : List XmlEvent)
        (st : MetaState) (fact : Fact),
        (addMetaDataToFact strToType conv xml st fact).1
          = loadParameterFactMetaData strToType conv xml st) := by
  have h1 : ∀ (strToType : String → Option ValueType) (conv : ConvFun) (xml : List XmlEvent)
      (st : MetaState), st.parameterMetaDataLoaded = true →
      loadParameterFactMetaData strToType conv xml st = st := by
    intro strToType conv xml st h
    simp [loadParameterFactMetaData, h]
  have h2 : ∀ (strToType : String → Option ValueType) (conv : ConvFun) (xml : List XmlEvent)
      (st : MetaState),
      (loadParameterFactMetaData strToType conv xml st).parameterMetaDataLoaded = true := by
    intro strToType conv xml st
    by_cases h : st.parameterMetaDataLoaded <;> simp [loadParameterFactMetaData, h]
  refine ⟨h1, h2, ?_, ?_⟩
  · intro strToType conv xml st
    exact h1 _ _ _ _ (h2 strToType conv xml st)
  · intro strToType conv xml st fact
    cases hl : assocLookup
        (loadParameterFactMetaData strToType conv xml st).mapParameterName2FactMetaData
        fact.name <;>
      simp [addMetaDataToFact, hl]

/-- Concrete evaluation of `c7_load_lazy_idempotent`: a second load call on the
already-loaded state is the identity. -/
theorem c7_load_witness :
    loadParameterFactMetaData (fun _ => none) (fun _ _ _ => none) []
        { parameterMetaDataLoaded := true
          mapParameterName2FactMetaData := [("A", FactMetaData.mkDefault ValueType.int32)] }
      = { parameterMetaDataLoaded := true
          mapParameterName2FactMetaData := [("A", FactMetaData.mkDefault ValueType.int32)] } :=
  c7_load_lazy_idempotent.1 (fun _ => none) (fun _ _ _ => none) []
    { parameterMetaDataLoaded := true
      mapParameterName2FactMetaData := [("A", FactMetaData.mkDefault ValueType.int32)] } rfl

/-- C4: when the loader sees a parameter element whose name already has a map
entry, the existing entry is replaced by a fresh default-constructed metadata
object for that name only, every other name's entry is untouched,
`badMetaData` is raised, and the parse continues with the remaining tokens
instead of aborting. -/
theorem c4_duplicate_replaced_load_continues :
    ∀ (strToType : String → Option ValueType) (conv : ConvFun) (s : LoadState)
      (attributes : List (String × String)) (text : String)
      (pname ptypeStr : String) (vt : ValueType) (rest : List XmlEvent),
      s.xmlState = XmlState.foundGroup →
      assocLookup attributes "name" = some pname →
      assocLookup attributes "type" = some ptypeStr →
      strToType ptypeStr = some vt →
      (assocLookup s.map pname).isSome = true →
      ∃ s1, loadStep strToType conv s (.startElem "parameter" attributes text) = .next s1
        ∧ assocLookup s1.map pname = some (FactMetaData.mkDefault vt)
        ∧ (∀ m, m ≠ pname → assocLookup s1.map m = assocLookup s.map m)
        ∧ s1.badMetaData = true
        ∧ loadRun strToType conv s (.startElem "parameter" attributes text :: rest)
            = loadRun strToType conv s1 rest := by
  intro strToType conv s attributes text pname ptypeStr vt rest hstate hn ht hstt hdup
  have hstep : loadStep strToType conv s (.startElem "parameter" attributes text) =
      .next { s with
          xmlState := XmlState.foundParameter,
          badMetaData := true,
          map := assocSet s.map pname (FactMetaData.mkDefault vt),
          currentName := some pname } := by
    simp [loadStep, hstate, hn, ht, hstt, hdup]
  refine ⟨_, hstep, ?_, ?_, rfl, ?_⟩
  · exact assocLookup_assocSet_self s.map pname (FactMetaData.mkDefault vt)
  · intro m hm
    exact assocLookup_assocSet_ne s.map pname m (FactMetaData.mkDefault vt) hm
  · simp only [loadRun, hstep]

/-- Concrete evaluation of `c4_duplicate_replaced_load_continues`: a duplicate
"B" resets B's entry to default metadata, leaves A's entry alone, and
processing continues. -/
theorem c4_duplicate_witness :
    ∃ s1, loadStep (fun t => if t = "INT32" then some ValueType.int32 else none)
        (fun _ _ _ => none)
        { factGroup := "G", currentName := none, xmlState := XmlState.foundGroup
          badMetaData := false
          map := [("A", FactMetaData.mkDefault ValueType.float),
                  ("B", { FactMetaData.mkDefault ValueType.int32 with name := "B", group := "G" })] }
        (.startElem "parameter" [("name", "B"), ("type", "INT32")] "") = .next s1
      ∧ assocLookup s1.map "B" = some (FactMetaData.mkDefault ValueType.int32)
      ∧ (∀ m, m ≠ "B" → assocLookup s1.map m =
          assocLookup [("A", FactMetaData.mkDefault ValueType.float),
            ("B", { FactMetaData.mkDefault ValueType.int32 with name := "B", group := "G" })] m)
      ∧ s1.badMetaData = true := by
  obtain ⟨s1, h1, h2, h3, h4, _⟩ :=
    c4_duplicate_replaced_load_continues
      (fun t => if t = "INT32" then some ValueType.int32 else none) (fun _ _ _ => none)
      { factGroup := "G", currentName := none, xmlState := XmlState.foundGroup
        badMetaData := false
        map := [("A", FactMetaData.mkDefault ValueType.float),
                ("B", { FactMetaData.mkDefault ValueType.int32 with name := "B", group := "G" })] }
      [("name", "B"), ("type", "INT32")] "" "B" "INT32" ValueType.int32 []
      rfl (by decide) (by decide) (by decide) (by decide)
  exact ⟨s1, h1, h2, h3, h4⟩

theorem loadStep_skips_sub (strToType : String → Option ValueType) (conv : ConvFun)
    (s : LoadState) (e : XmlEvent)
    (hbad : s.badMetaData = true) (hstate : s.xmlState = XmlState.foundParameter)
    (hsub : isMetaDataSub e = true) :
    loadStep strToType conv s e = .next s := by
  cases e with
  | startElem n attrs t =>
    simp only [isMetaDataSub, Bool.and_eq_true, decide_eq_true_eq] at hsub
    obtain ⟨⟨⟨h1, h2⟩, h3⟩, h4⟩ := hsub
    simp [loadStep, h1, h2, h3, h4, hstate, hbad]
  | endElem n =>
    simp only [isMetaDataSub, Bool.and_eq_true, decide_eq_true_eq] at hsub
    obtain ⟨⟨h1, h2⟩, h3⟩ := hsub
    simp [loadStep, h1, h2, h3]

theorem loadRun_skips_subs (strToType : String → Option ValueType) (conv : ConvFun) :
    ∀ (subs : List XmlEvent) (s : LoadState) (rest : List XmlEvent),
      s.badMetaData = true → s.xmlState = XmlState.foundParameter →
      subs.all isMetaDataSub = true →
      loadRun strToType conv s (subs ++ rest) = loadRun strToType conv s rest := by
  intro subs
  induction subs with
  | nil => intro s rest _ _ _; rfl
  | cons e es ih =>
    intro s rest hbad hstate hall
    simp only [List.all_cons, Bool.and_eq_true] at hall
    rw [List.cons_append]
    rw [show loadRun strToType conv s (e :: (es ++ rest))
          = loadRun strToType conv s (es ++ rest) by
        simp only [loadRun, loadStep_skips_sub strToType conv s e hbad hstate hall.1]]
    exact ih s rest hbad hstate hall.2

/-- C5: because `badMetaData` is initialized to true and only reset when a
parameter end element is processed, every metadata sub-element of the first
parameter element of the file is skipped: the first parameter's map entry
retains only its name, group and default attribute, whatever sub-elements
(short_desc, long_desc, min, max, unit, decimal, reboot_required, enum
values) appear inside it. -/
theorem c5_first_parameter_subelements_skipped :
    ∀ (strToType : String → Option ValueType) (conv : ConvFun)
      (a1 ga pattrs : List (String × String)) (t1 gt ptext : String)
      (g pname ptypeStr dstr : String) (vt : ValueType) (dv : Int)
      (subs rest : List XmlEvent),
      assocLookup ga "name" = some g →
      assocLookup pattrs "name" = some pname →
      assocLookup pattrs "type" = some ptypeStr →
      assocLookup pattrs "default" = some dstr →
      dstr ≠ "" →
      strToType ptypeStr = some vt →
      conv { FactMetaData.mkDefault vt with name := pname, group := g } false dstr = some dv →
      subs.all isMetaDataSub = true →
      ∃ s5, loadRun strToType conv (initLoadState [])
            (XmlEvent.startElem "parameters" a1 t1 ::
              XmlEvent.startElem "version" a1 "3" ::
              XmlEvent.endElem "version" ::
              XmlEvent.startElem "group" ga gt ::
              XmlEvent.startElem "parameter" pattrs ptext ::
              (subs ++ (XmlEvent.endElem "parameter" :: rest)))
          = loadRun strToType conv s5 rest
        ∧ assocLookup s5.map pname =
            some { FactMetaData.mkDefault vt with
                    name := pname, group := g, rawDefaultValue := some dv }
        ∧ s5.badMetaData = false := by
  intro strToType conv a1 ga pattrs t1 gt ptext g pname ptypeStr dstr vt dv subs rest
  intro hg hn ht hd hdne hstt hconv hall
  have h1 : loadStep strToType conv (initLoadState [])
        (.startElem "parameters" a1 t1)
      = .next { factGroup := "", currentName := none, xmlState := XmlState.foundParameters,
                badMetaData := true, map := [] } := by
    simp [loadStep, initLoadState]
  have h2 : loadStep strToType conv
        { factGroup := "", currentName := none, xmlState := XmlState.foundParameters,
          badMetaData := true, map := [] }
        (.startElem "version" a1 "3")
      = .next { factGroup := "", currentName := none, xmlState := XmlState.foundVersion,
                badMetaData := true, map := [] } := by
    simp [loadStep, show parseIntStr "3" = some 3 from by decide]
  have h3 : loadStep strToType conv
        { factGroup := "", currentName := none, xmlState := XmlState.foundVersion,
          badMetaData := true, map := [] }
        (.endElem "version")
      = .next { factGroup := "", currentName := none, xmlState := XmlState.foundVersion,
                badMetaData := true, map := [] } := by
    simp [loadStep]
  have h4 : loadStep strToType conv
        { factGroup := "", currentName := none, xmlState := XmlState.foundVersion,
          badMetaData := true, map := [] }
        (.startElem "group" ga gt)
      = .next { factGroup := g, currentName := none, xmlState := XmlState.foundGroup,
                badMetaData := true, map := [] } := by
    simp [loadStep, hg]
  have h5 : loadStep strToType conv
        { factGroup := g, currentName := none, xmlState := XmlState.foundGroup,
          badMetaData := true, map := [] }
        (.startElem "parameter" pattrs ptext)
      = .next { factGroup := g, currentName := some pname,
                xmlState := XmlState.foundParameter, badMetaData := true,
                map := [(pname,
                  { FactMetaData.mkDefault vt with
                      name := pname, group := g, rawDefaultValue := some dv })] } := by
    simp [loadStep, hn, ht, hd, hstt, hdne, hconv, assocLookup, assocSet]
  have h6 : loadStep strToType conv
        { factGroup := g, currentName := some pname,
          xmlState := XmlState.foundParameter, badMetaData := true,
          map := [(pname,
            { FactMetaData.mkDefault vt with
                name := pname, group := g, rawDefaultValue := some dv })] }
        (.endElem "parameter")
      = .next { factGroup := g, currentName := none,
                xmlState := XmlState.foundGroup, badMetaData := false,
                map := [(pname,
                  { FactMetaData.mkDefault vt with
                      name := pname, group := g, rawDefaultValue := some dv })] } := by
    simp [loadStep]
  refine ⟨{ factGroup := g, currentName := none,
            xmlState := XmlState.foundGroup, badMetaData := false,
            map := [(pname,
              { FactMetaData.mkDefault vt with
                  name := pname, group := g, rawDefaultValue := some dv })] },
          ?_, by simp [assocLookup], rfl⟩
  rw [show loadRun strToType conv (initLoadState [])
        (XmlEvent.startElem "parameters" a1 t1 ::
          XmlEvent.startElem "version" a1 "3" ::
          XmlEvent.endElem "version" ::
          XmlEvent.startElem "group" ga gt ::
          XmlEvent.startElem "parameter" pattrs ptext ::
          (subs ++ (XmlEvent.endElem "parameter" :: rest)))
      = loadRun strToType conv
          { factGroup := g, currentName := some pname,
            xmlState := XmlState.foundParameter, badMetaData := true,
            map := [(pname,
              { FactMetaData.mkDefault vt with
                  name := pname, group := g, rawDefaultValue := some dv })] }
          (subs ++ (XmlEvent.endElem "parameter" :: rest)) by
    simp only [loadRun, h1, h2, h3, h4, h5]]
  rw [loadRun_skips_subs strToType conv subs _ _ rfl rfl hall]
  simp only [loadRun, h6]

/-- Concrete evaluation of `c5_first_parameter_subelements_skipped`: the first
parameter "P" is followed by short_desc, min and max sub-elements, yet its
final metadata keeps only name, group and default. -/
theorem c5_first_parameter_witness :
    ∃ s5, loadRun (fun t => if t = "FLOAT" then some ValueType.float else none)
          (fun _ _ str => parseIntStr str) (initLoadState [])
          (XmlEvent.startElem "parameters" [] "" ::
            XmlEvent.startElem "version" [] "3" ::
            XmlEvent.endElem "version" ::
            XmlEvent.startElem "group" [("name", "G")] "" ::
            XmlEvent.startElem "parameter" [("name", "P"), ("type", "FLOAT"), ("default", "4")] "" ::
            ([XmlEvent.startElem "short_desc" [] "hello",
              XmlEvent.endElem "short_desc",
              XmlEvent.startElem "min" [] "1",
              XmlEvent.endElem "min",
              XmlEvent.startElem "max" [] "9",
              XmlEvent.endElem "max"] ++ (XmlEvent.endElem "parameter" :: [])))
        = loadRun (fun t => if t = "FLOAT" then some ValueType.float else none)
            (fun _ _ str => parseIntStr str) s5 []
      ∧ assocLookup s5.map "P" =
          some { FactMetaData.mkDefault ValueType.float with
                  name := "P", group := "G", rawDefaultValue := some 4 }
      ∧ s5.badMetaData = false :=
  c5_first_parameter_subelements_skipped
    (fun t => if t = "FLOAT" then some ValueType.float else none)
    (fun _ _ str => parseIntStr str)
    [] [("name", "G")] [("name", "P"), ("type", "FLOAT"), ("default", "4")]
    "" "" "" "G" "P" "FLOAT" "4" ValueType.float 4
    [XmlEvent.startElem "short_desc" [] "hello",
     XmlEvent.endElem "short_desc",
     XmlEvent.startElem "min" [] "1",
     XmlEvent.endElem "min",
     XmlEvent.startElem "max" [] "9",
     XmlEvent.endElem "max"] []
    (by decide) (by decide) (by decide) (by decide) (by decide) (by decide)
    (by decide) (by decide)

theorem runEvents_nil (s : EngineState) : runEvents s [] = s := rfl

theorem runEvents_cons (s : EngineState) (e : EngineEvent) (es : List EngineEvent) :
    runEvents s (e :: es) = runEvents (engineStep s e) es := rfl

theorem runEvents_append (s : EngineState) (es fs : List EngineEvent) :
    runEvents s (es ++ fs) = runEvents (runEvents s es) fs := by
  simp [runEvents, List.foldl_append]

theorem length_filter_le_lt (l : List (Nat × Nat)) (k : Nat) :
    (l.filter (fun e => decide (e.2 ≤ k))).length +
      (l.filter (fun e => decide (k < e.2))).length = l.length := by
  induction l with
  | nil => rfl
  | cons a l ih =>
    by_cases h : a.2 ≤ k
    · have h2 : ¬ (k < a.2) := not_lt.mpr h
      simp [h, h2]
      omega
    · have h2 : k < a.2 := not_le.mp h
      simp [h, h2]
      omega

theorem checkInitialLoadComplete_fields (s : EngineState) :
    (checkInitialLoadComplete s).componentIds = s.componentIds
  ∧ (checkInitialLoadComplete s).paramCountMap = s.paramCountMap
  ∧ (checkInitialLoadComplete s).resolvedIndexMap = s.resolvedIndexMap
  ∧ (checkInitialLoadComplete s).waitingReadParamIndexMap = s.waitingReadParamIndexMap
  ∧ (checkInitialLoadComplete s).failedReadParamIndexMap = s.failedReadParamIndexMap := by
  unfold checkInitialLoadComplete
  split
  · exact ⟨rfl, rfl, rfl, rfl, rfl⟩
  · split
    · exact ⟨rfl, rfl, rfl, rfl, rfl⟩
    · exact ⟨rfl, rfl, rfl, rfl, rfl⟩

theorem parameterUpdate_flag_log (c i cnt : Nat) (s : EngineState) :
    (parameterUpdate c i cnt s).initialLoadComplete = s.initialLoadComplete
  ∧ (parameterUpdate c i cnt s).signalLog = s.signalLog := by
  unfold parameterUpdate
  split
  · split
    · exact ⟨rfl, rfl⟩
    · exact ⟨rfl, rfl⟩
  · exact ⟨rfl, rfl⟩

theorem check_complete_of_complete (s : EngineState) (h : s.initialLoadComplete = true) :
    checkInitialLoadComplete s = s := by
  unfold checkInitialLoadComplete
  simp [h]

theorem check_sets_complete (s : EngineState)
    (h : ∀ c, s.waitingReadParamIndexMap c = []) :
    (checkInitialLoadComplete s).initialLoadComplete = true := by
  by_cases hc : s.initialLoadComplete = true
  · rw [check_complete_of_complete s hc]; exact hc
  · unfold checkInitialLoadComplete
    have hall : s.componentIds.all (fun c => decide (s.waitingReadParamIndexMap c = [])) = true := by
      simp only [List.all_eq_true, decide_eq_true_eq]
      intro c _
      exact h c
    simp [hc, hall]

theorem engineStep_complete_preserved (s : EngineState) (e : EngineEvent)
    (h : s.initialLoadComplete = true) :
    (engineStep s e).initialLoadComplete = true ∧ (engineStep s e).signalLog = s.signalLog := by
  cases e with
  | paramUpdate c i cnt =>
    have hf := parameterUpdate_flag_log c i cnt s
    have hc : (parameterUpdate c i cnt s).initialLoadComplete = true := hf.1.trans h
    simp only [engineStep, check_complete_of_complete _ hc]
    exact ⟨hc, hf.2⟩
  | waitingTimeout =>
    have hc : (waitingParamTimeout s).initialLoadComplete = true := h
    simp only [engineStep, check_complete_of_complete _ hc]
    exact ⟨hc, rfl⟩

theorem check_incomplete_cases (s : EngineState) (h : s.initialLoadComplete = false) :
    (checkInitialLoadComplete s = s)
  ∨ ((checkInitialLoadComplete s).initialLoadComplete = true
      ∧ (checkInitialLoadComplete s).signalLog = s.signalLog ++ [anyFailedIndex s]) := by
  unfold checkInitialLoadComplete
  rw [h]
  by_cases hall : s.componentIds.all (fun c => decide (s.waitingReadParamIndexMap c = [])) = true
  · right
    simp [hall]
  · left
    simp [hall]

theorem engineStep_incomplete (s : EngineState) (e : EngineEvent)
    (h : s.initialLoadComplete = false) :
    ((engineStep s e).initialLoadComplete = false ∧ (engineStep s e).signalLog = s.signalLog)
  ∨ ((engineStep s e).initialLoadComplete = true
      ∧ (engineStep s e).signalLog.length = s.signalLog.length + 1) := by
  cases e with
  | paramUpdate c i cnt =>
    have hf := parameterUpdate_flag_log c i cnt s
    have hc : (parameterUpdate c i cnt s).initialLoadComplete = false := hf.1.trans h
    rcases check_incomplete_cases _ hc with hk | hk
    · left
      simp only [engineStep, hk]
      exact ⟨hc, hf.2⟩
    · right
      simp only [engineStep]
      exact ⟨hk.1, by rw [hk.2, hf.2]; simp⟩
  | waitingTimeout =>
    have hc : (waitingParamTimeout s).initialLoadComplete = false := h
    rcases check_incomplete_cases _ hc with hk | hk
    · left
      simp only [engineStep, hk]
      exact ⟨hc, rfl⟩
    · right
      simp only [engineStep]
      refine ⟨hk.1, ?_⟩
      rw [hk.2]
      simp [waitingParamTimeout]

theorem runEvents_complete_preserved (es : List EngineEvent) :
    ∀ s : EngineState, s.initialLoadComplete = true →
      (runEvents s es).initialLoadComplete = true ∧ (runEvents s es).signalLog = s.signalLog := by
  induction es with
  | nil => intro s h; exact ⟨h, rfl⟩
  | cons e es ih =>
    intro s h
    rw [runEvents_cons]
    have hs := engineStep_complete_preserved s e h
    have hr := ih (engineStep s e) hs.1
    exact ⟨hr.1, hr.2.trans hs.2⟩

theorem runEvents_incomplete (es : List EngineEvent) :
    ∀ s : EngineState, s.initialLoadComplete = false →
      ((runEvents s es).initialLoadComplete = false ∧ (runEvents s es).signalLog = s.signalLog)
    ∨ ((runEvents s es).initialLoadComplete = true
        ∧ (runEvents s es).signalLog.length = s.signalLog.length + 1) := by
  induction es with
  | nil => intro s h; exact Or.inl ⟨h, rfl⟩
  | cons e es ih =>
    intro s h
    rw [runEvents_cons]
    rcases engineStep_incomplete s e h with hs | hs
    · rcases ih (engineStep s e) hs.1 with hr | hr
      · exact Or.inl ⟨hr.1, hr.2.trans hs.2⟩
      · exact Or.inr ⟨hr.1, by rw [hr.2, hs.2]⟩
    · have hr := runEvents_complete_preserved es (engineStep s e) hs.1
      exact Or.inr ⟨hr.1, by rw [hr.2, hs.2]⟩

theorem mem_waiting_timeoutStep (s : EngineState) (c : Nat) (p : Nat × Nat)
    (hp : p ∈ (engineStep s EngineEvent.waitingTimeout).waitingReadParamIndexMap c) :
    ∃ q ∈ s.waitingReadParamIndexMap c, p = (q.1, q.2 + 1) ∧ q.2 + 1 ≤ maxInitialLoadRetry := by
  have hw : (engineStep s EngineEvent.waitingTimeout).waitingReadParamIndexMap
      = (waitingParamTimeout s).waitingReadParamIndexMap := by
    simp only [engineStep]
    exact (checkInitialLoadComplete_fields (waitingParamTimeout s)).2.2.2.1
  rw [hw] at hp
  simp only [waitingParamTimeout, List.mem_filter, List.mem_map, decide_eq_true_eq] at hp
  obtain ⟨⟨q, hq, hpq⟩, hle⟩ := hp
  exact ⟨q, hq, hpq.symm, by rw [← hpq] at hle; exact hle⟩

theorem waiting_retry_after_drain :
    ∀ (n : Nat) (s : EngineState) (c : Nat) (p : Nat × Nat),
      p ∈ (runEvents s (List.replicate (n + 1) EngineEvent.waitingTimeout)).waitingReadParamIndexMap c →
      ∃ q ∈ s.waitingReadParamIndexMap c,
        p.2 = q.2 + (n + 1) ∧ p.2 ≤ maxInitialLoadRetry := by
  intro n
  induction n with
  | zero =>
    intro s c p hp
    rw [show List.replicate 1 EngineEvent.waitingTimeout = [EngineEvent.waitingTimeout] from rfl,
      runEvents_cons, runEvents_nil] at hp
    obtain ⟨q, hq, hpq, hle⟩ := mem_waiting_timeoutStep s c p hp
    exact ⟨q, hq, by rw [hpq], by rw [hpq]; exact hle⟩
  | succ m ih =>
    intro s c p hp
    rw [List.replicate_succ, runEvents_cons] at hp
    obtain ⟨q1, hq1, hpq1, hle1⟩ := ih (engineStep s EngineEvent.waitingTimeout) c p hp
    obtain ⟨q, hq, hq1q, hle⟩ := mem_waiting_timeoutStep s c q1 hq1
    refine ⟨q, hq, ?_, hle1⟩
    rw [hpq1, hq1q]
    omega

theorem waiting_empty_after_budget (s : EngineState) (c : Nat) :
    (runEvents s (List.replicate 11 EngineEvent.waitingTimeout)).waitingReadParamIndexMap c
      = [] := by
  rw [List.eq_nil_iff_forall_not_mem]
  intro p hp
  obtain ⟨q, _, hpeq, hle⟩ := waiting_retry_after_drain 10 s c p hp
  rw [maxInitialLoadRetry] at hle
  omega

theorem complete_after_budget (s : EngineState) :
    (runEvents s (List.replicate 11 EngineEvent.waitingTimeout)).initialLoadComplete = true := by
  have hsplit : List.replicate 11 EngineEvent.waitingTimeout
      = List.replicate 10 EngineEvent.waitingTimeout ++ [EngineEvent.waitingTimeout] := by
    rw [← List.replicate_succ']
  set t := runEvents s (List.replicate 10 EngineEvent.waitingTimeout) with ht
  have hrun : runEvents s (List.replicate 11 EngineEvent.waitingTimeout)
      = engineStep t EngineEvent.waitingTimeout := by
    rw [hsplit, runEvents_append]
    rfl
  have hempty : ∀ c, (waitingParamTimeout t).waitingReadParamIndexMap c = [] := by
    intro c
    have h1 := waiting_empty_after_budget s c
    rw [hrun] at h1
    have hw : (engineStep t EngineEvent.waitingTimeout).waitingReadParamIndexMap
        = (waitingParamTimeout t).waitingReadParamIndexMap := by
      simp only [engineStep]
      exact (checkInitialLoadComplete_fields (waitingParamTimeout t)).2.2.2.1
    rw [hw] at h1
    exact h1
  rw [hrun]
  simp only [engineStep]
  exact check_sets_complete _ hempty

theorem quietStep_preserves (s : EngineState) (c : Nat) :
    (engineStep s EngineEvent.waitingTimeout).resolvedIndexMap c = s.resolvedIndexMap c
  ∧ (engineStep s EngineEvent.waitingTimeout).paramCountMap c = s.paramCountMap c
  ∧ ((engineStep s EngineEvent.waitingTimeout).waitingReadParamIndexMap c).length +
      ((engineStep s EngineEvent.waitingTimeout).failedReadParamIndexMap c).length
    = (s.waitingReadParamIndexMap c).length + (s.failedReadParamIndexMap c).length := by
  have hf := checkInitialLoadComplete_fields (waitingParamTimeout s)
  refine ⟨?_, ?_, ?_⟩
  · simp only [engineStep]
    rw [hf.2.2.1]
    rfl
  · simp only [engineStep]
    rw [hf.2.1]
    rfl
  · simp only [engineStep]
    rw [hf.2.2.2.1, hf.2.2.2.2]
    simp only [waitingParamTimeout, List.length_append, List.length_map]
    have := length_filter_le_lt
      ((s.waitingReadParamIndexMap c).map (fun e => (e.1, e.2 + 1))) maxInitialLoadRetry
    rw [List.length_map] at this
    omega

theorem quietRun_preserves (n : Nat) :
    ∀ (s : EngineState) (c : Nat),
      (runEvents s (List.replicate n EngineEvent.waitingTimeout)).resolvedIndexMap c
          = s.resolvedIndexMap c
      ∧ (runEvents s (List.replicate n EngineEvent.waitingTimeout)).paramCountMap c
          = s.paramCountMap c
      ∧ ((runEvents s (List.replicate n EngineEvent.waitingTimeout)).waitingReadParamIndexMap c).length +
          ((runEvents s (List.replicate n EngineEvent.waitingTimeout)).failedReadParamIndexMap c).length
        = (s.waitingReadParamIndexMap c).length + (s.failedReadParamIndexMap c).length := by
  induction n with
  | zero => intro s c; exact ⟨rfl, rfl, rfl⟩
  | succ m ih =>
    intro s c
    rw [List.replicate_succ, runEvents_cons]
    have hstep := quietStep_preserves s c
    have hrun := ih (engineStep s EngineEvent.waitingTimeout) c
    refine ⟨hrun.1.trans hstep.1, hrun.2.1.trans hstep.2.1, ?_⟩
    rw [hrun.2.2, hstep.2.2]

theorem nodup_keys_eq {α β : Type} [DecidableEq α] (l : List (α × β))
    (hn : (l.map Prod.fst).Nodup) (a : α) (b b' : β)
    (h1 : (a, b) ∈ l) (h2 : (a, b') ∈ l) : b = b' := by
  induction l with
  | nil => cases h1
  | cons hd tl ih =>
    rw [List.map_cons, List.nodup_cons] at hn
    rcases List.mem_cons.mp h1 with he1 | he1 <;> rcases List.mem_cons.mp h2 with he2 | he2
    · rw [← he1] at he2
      injection he2 with hfst hsnd
      exact hsnd.symm
    · exact absurd (by rw [← he1]; exact List.mem_map.mpr ⟨(a, b'), he2, rfl⟩) hn.1
    · exact absurd (by rw [← he2]; exact List.mem_map.mpr ⟨(a, b), he1, rfl⟩) hn.1
    · exact ih hn.2 he1 he2

/-- C1: for every component whose expected parameter count is known, eleven
waiting-parameter timeout ticks drain every pending index read (each entry is
bounded by the retry budget), after which resolved plus failed indices equal
the expected count and the engine has latched the terminal Ready state
instead of hanging. -/
theorem c1_termination_resolved_plus_failed :
    ∀ s : EngineState, sumInvariant s →
      (∀ c cnt, s.paramCountMap c = some cnt →
        ((runEvents s (List.replicate 11 EngineEvent.waitingTimeout)).resolvedIndexMap c).length
          + ((runEvents s (List.replicate 11 EngineEvent.waitingTimeout)).failedReadParamIndexMap c).length
          = cnt)
    ∧ (runEvents s (List.replicate 11 EngineEvent.waitingTimeout)).initialLoadComplete = true
    ∧ (∀ c, (runEvents s (List.replicate 11 EngineEvent.waitingTimeout)).waitingReadParamIndexMap c
          = []) := by
  intro s hinv
  refine ⟨?_, complete_after_budget s, waiting_empty_after_budget s⟩
  intro c cnt hcnt
  have hq := quietRun_preserves 11 s c
  have hempty := waiting_empty_after_budget s c
  have hsum := hinv c cnt hcnt
  rw [hq.1]
  have hlen := hq.2.2
  rw [hempty] at hlen
  simp only [List.length_nil, Nat.zero_add] at hlen
  omega

/-- Concrete evaluation of `c1_termination_resolved_plus_failed` on
`sampleEngineState`: after the drain, resolved plus failed indices of
component 1 equal its expected count 3, and the load is complete. -/
theorem c1_termination_witness :
    sumInvariant sampleEngineState
  ∧ ((runEvents sampleEngineState (List.replicate 11 EngineEvent.waitingTimeout)).resolvedIndexMap 1).length
      + ((runEvents sampleEngineState (List.replicate 11 EngineEvent.waitingTimeout)).failedReadParamIndexMap 1).length
      = 3
  ∧ (runEvents sampleEngineState (List.replicate 11 EngineEvent.waitingTimeout)).initialLoadComplete
      = true := by
  have hinv : sumInvariant sampleEngineState := by
    intro c cnt h
    by_cases hc : c = 1
    · subst hc
      simp [sampleEngineState] at h ⊢
      omega
    · simp [sampleEngineState, hc] at h
  exact ⟨hinv,
    (c1_termination_resolved_plus_failed sampleEngineState hinv).1 1 3
      (by simp [sampleEngineState]),
    (c1_termination_resolved_plus_failed sampleEngineState hinv).2.1⟩

/-- C2: the waiting-parameter timeout keeps every retry count in all three
waiting maps at or below the retry budget of `maxInitialLoadRetry` (10): an
entry whose incremented retry count would exceed the budget is removed from
the pending map — a pending index read joins the failed index set, a pending
write is abandoned. -/
theorem c2_retry_bounded_by_budget :
    ∀ (s : EngineState) (c : Nat),
      (∀ p, p ∈ (waitingParamTimeout s).waitingReadParamIndexMap c →
        p.2 ≤ maxInitialLoadRetry)
    ∧ (∀ p, p ∈ (waitingParamTimeout s).waitingReadParamNameMap c →
        p.2 ≤ maxInitialLoadRetry)
    ∧ (∀ p, p ∈ (waitingParamTimeout s).waitingWriteParamNameMap c →
        p.2 ≤ maxInitialLoadRetry)
    ∧ (∀ i r, (i, r) ∈ s.waitingReadParamIndexMap c → maxInitialLoadRetry < r + 1 →
        i ∈ (waitingParamTimeout s).failedReadParamIndexMap c)
    ∧ (((s.waitingReadParamIndexMap c).map Prod.fst).Nodup →
        ∀ i r, (i, r) ∈ s.waitingReadParamIndexMap c → maxInitialLoadRetry < r + 1 →
        ∀ r', (i, r') ∉ (waitingParamTimeout s).waitingReadParamIndexMap c)
    ∧ (((s.waitingWriteParamNameMap c).map Prod.fst).Nodup →
        ∀ nm r, (nm, r) ∈ s.waitingWriteParamNameMap c → maxInitialLoadRetry < r + 1 →
        ∀ r', (nm, r') ∉ (waitingParamTimeout s).waitingWriteParamNameMap c) := by
  intro s c
  refine ⟨?_, ?_, ?_, ?_, ?_, ?_⟩
  · intro p hp
    simp only [waitingParamTimeout, List.mem_filter, decide_eq_true_eq] at hp
    exact hp.2
  · intro p hp
    simp only [waitingParamTimeout, List.mem_filter, decide_eq_true_eq] at hp
    exact hp.2
  · intro p hp
    simp only [waitingParamTimeout, List.mem_filter, decide_eq_true_eq] at hp
    exact hp.2
  · intro i r hm hgt
    simp only [waitingParamTimeout]
    apply List.mem_append_right
    apply List.mem_map.mpr
    refine ⟨(i, r + 1), ?_, rfl⟩
    exact List.mem_filter.mpr ⟨List.mem_map.mpr ⟨(i, r), hm, rfl⟩, by simpa using hgt⟩
  · intro hnod i r hm hgt r' hp
    simp only [waitingParamTimeout, List.mem_filter, List.mem_map, decide_eq_true_eq] at hp
    obtain ⟨⟨q, hq, hpq⟩, hle⟩ := hp
    have hq1 : q.1 = i := congrArg Prod.fst hpq
    have hq2 : q.2 + 1 = r' := congrArg Prod.snd hpq
    have hqmem : (i, q.2) ∈ s.waitingReadParamIndexMap c := by
      rw [show (i, q.2) = q from Prod.ext hq1.symm rfl]
      exact hq
    have heq : q.2 = r := nodup_keys_eq _ hnod i q.2 r hqmem hm
    omega
  · intro hnod nm r hm hgt r' hp
    simp only [waitingParamTimeout, List.mem_filter, List.mem_map, decide_eq_true_eq] at hp
    obtain ⟨⟨q, hq, hpq⟩, hle⟩ := hp
    have hq1 : q.1 = nm := congrArg Prod.fst hpq
    have hq2 : q.2 + 1 = r' := congrArg Prod.snd hpq
    have hqmem : (nm, q.2) ∈ s.waitingWriteParamNameMap c := by
      rw [show (nm, q.2) = q from Prod.ext hq1.symm rfl]
      exact hq
    have heq : q.2 = r := nodup_keys_eq _ hnod nm q.2 r hqmem hm
    omega

/-- Concrete evaluation of `c2_retry_bounded_by_budget` on
`sampleTimeoutState`: the surviving read entry's retry count stays within the
budget, index 1 at retry 10 moves to the failed set and leaves the pending
map, and write "W" at retry 10 is abandoned. -/
theorem c2_retry_witness :
    ((0, 4) ∈ (waitingParamTimeout sampleTimeoutState).waitingReadParamIndexMap 1
      ∧ (0, 4).2 ≤ maxInitialLoadRetry)
  ∧ 1 ∈ (waitingParamTimeout sampleTimeoutState).failedReadParamIndexMap 1
  ∧ (1, 11) ∉ (waitingParamTimeout sampleTimeoutState).waitingReadParamIndexMap 1
  ∧ ("W", 11) ∉ (waitingParamTimeout sampleTimeoutState).waitingWriteParamNameMap 1 :=
  ⟨⟨by decide, (c2_retry_bounded_by_budget sampleTimeoutState 1).1 (0, 4) (by decide)⟩,
   (c2_retry_bounded_by_budget sampleTimeoutState 1).2.2.2.1 1 10 (by decide) (by decide),
   (c2_retry_bounded_by_budget sampleTimeoutState 1).2.2.2.2.1 (by decide) 1 10
     (by decide) (by decide) 11,
   (c2_retry_bounded_by_budget sampleTimeoutState 1).2.2.2.2.2 (by decide) "W" 10
     (by decide) (by decide) 11⟩

/-- C3: within one load epoch the readiness signal is emitted exactly once —
an epoch that starts un-latched and ends with a full drain of eleven timeout
ticks appends exactly one entry to the signal log, no event after the latch
emits again — the emitted flag is true iff some failed index exists at
emission, and a full refresh resets the latch, re-arming the signal for the
next epoch. -/
theorem c3_readiness_exactly_once :
    (∀ (s : EngineState) (events : List EngineEvent), s.initialLoadComplete = false →
      (runEvents s (events ++ List.replicate 11 EngineEvent.waitingTimeout)).signalLog.length
        = s.signalLog.length + 1)
  ∧ (∀ (s : EngineState), s.initialLoadComplete = true →
      ∀ events, (runEvents s events).signalLog = s.signalLog)
  ∧ (∀ s : EngineState, (checkInitialLoadComplete s).signalLog ≠ s.signalLog →
      (checkInitialLoadComplete s).signalLog = s.signalLog ++ [anyFailedIndex s])
  ∧ (∀ s : EngineState, anyFailedIndex s = true ↔
      ∃ c ∈ s.componentIds, s.failedReadParamIndexMap c ≠ [])
  ∧ (∀ s : EngineState, (refreshAllParameters s).initialLoadComplete = false
      ∧ (refreshAllParameters s).signalLog = s.signalLog) := by
  refine ⟨?_, ?_, ?_, ?_, ?_⟩
  · intro s events h
    rw [runEvents_append]
    rcases runEvents_incomplete events s h with hm | hm
    · rcases runEvents_incomplete (List.replicate 11 EngineEvent.waitingTimeout) _ hm.1
        with hr | hr
      · exact absurd (complete_after_budget (runEvents s events))
          (by rw [hr.1]; exact Bool.false_ne_true)
      · rw [hr.2, hm.2]
    · have hr := runEvents_complete_preserved (List.replicate 11 EngineEvent.waitingTimeout)
        _ hm.1
      rw [hr.2]
      exact hm.2
  · intro s h events
    exact (runEvents_complete_preserved events s h).2
  · intro s h
    unfold checkInitialLoadComplete at h ⊢
    by_cases hc : s.initialLoadComplete = true
    · exact absurd (by rw [if_pos hc]) h
    · rw [Bool.not_eq_true] at hc
      by_cases hall :
          s.componentIds.all (fun c => decide (s.waitingReadParamIndexMap c = [])) = true
      · simp [hc, hall]
      · exact absurd (by simp [hc, hall]) h
  · intro s
    simp [anyFailedIndex, List.any_eq_true]
  · intro s
    exact ⟨rfl, rfl⟩

/-- Concrete evaluation of `c3_readiness_exactly_once`: an epoch over
`sampleEngineState` emits exactly one signal, a latched state emits nothing
more, the completion check on `sampleDrainedState` appends the
missing-parameters flag, and a refresh re-arms the latch. -/
theorem c3_readiness_witness :
    (runEvents sampleEngineState
        ([] ++ List.replicate 11 EngineEvent.waitingTimeout)).signalLog.length
      = sampleEngineState.signalLog.length + 1
  ∧ (runEvents sampleReadyState [EngineEvent.waitingTimeout]).signalLog
      = sampleReadyState.signalLog
  ∧ (checkInitialLoadComplete sampleDrainedState).signalLog
      = sampleDrainedState.signalLog ++ [anyFailedIndex sampleDrainedState]
  ∧ (refreshAllParameters sampleReadyState).initialLoadComplete = false :=
  ⟨c3_readiness_exactly_once.1 sampleEngineState [] rfl,
   c3_readiness_exactly_once.2.1 sampleReadyState rfl [EngineEvent.waitingTimeout],
   c3_readiness_exactly_once.2.2.1 sampleDrainedState (by decide),
   (c3_readiness_exactly_once.2.2.2.2 sampleReadyState).1⟩

theorem stringToTypedVariant_intToStr (v : Int) (t : ValueType) :
    stringToTypedVariant (intToStr v) t =
      if classRangeOk (convertTarget t) v = true then some v else none := by
  have h := parseIntStr_intToStr v
  cases t <;> simp [stringToTypedVariant, qvariantConvert, convertTarget, h, classRangeOk]

theorem concatStrings_foldl (l : List String) :
    ∀ a : String, l.foldl (fun x y => x ++ y) a = a ++ concatStrings l := by
  induction l with
  | nil =>
    intro a
    simp [concatStrings]
  | cons x l ih =>
    intro a
    have hx : concatStrings (x :: l) = x ++ concatStrings l := by
      show (x :: l).foldl (fun x y => x ++ y) "" = _
      rw [List.foldl_cons, ih ("" ++ x)]
      simp
    rw [List.foldl_cons, ih (a ++ x), hx, String.append_assoc]

theorem import_export_foldl (mirror : List ParamRecord) :
    ∀ acc : List ParamRecord × String,
      (writeParametersToStream mirror).foldl importStep acc
        = (acc.1 ++ mirror.filter recordAccepted,
           acc.2 ++ concatStrings ((mirror.filter (fun r => !(recordAccepted r))).map
             (fun r => importErrorLine r.name))) := by
  induction mirror with
  | nil =>
    intro acc
    simp [writeParametersToStream, concatStrings]
  | cons r m ih =>
    intro acc
    rw [show writeParametersToStream (r :: m)
          = { componentId := r.componentId, name := r.name, ptype := r.ptype,
              valueStr := intToStr r.value } :: writeParametersToStream m from rfl]
    rw [List.foldl_cons]
    by_cases hacc : recordAccepted r = true
    · have hconv : stringToTypedVariant (intToStr r.value) r.ptype = some r.value := by
        rw [show stringToTypedVariant (intToStr r.value) r.ptype
              = stringToTypedVariant (intToStr r.value) r.ptype from rfl,
          stringToTypedVariant_intToStr]
        rw [show classRangeOk (convertTarget r.ptype) r.value = recordAccepted r from rfl, hacc]
        simp
      have hstep : importStep acc
          { componentId := r.componentId, name := r.name, ptype := r.ptype,
            valueStr := intToStr r.value } = (acc.1 ++ [r], acc.2) := by
        simp only [importStep, hconv]
      rw [hstep, ih (acc.1 ++ [r], acc.2)]
      simp [List.filter_cons, hacc]
    · have hacc2 : recordAccepted r = false := Bool.not_eq_true _ ▸ (by simpa using hacc)
      have hconv : stringToTypedVariant (intToStr r.value) r.ptype = none := by
        rw [show stringToTypedVariant (intToStr r.value) r.ptype
              = stringToTypedVariant (intToStr r.value) r.ptype from rfl,
          stringToTypedVariant_intToStr]
        rw [show classRangeOk (convertTarget r.ptype) r.value = recordAccepted r from rfl, hacc2]
        simp
      have hstep : importStep acc
          { componentId := r.componentId, name := r.name, ptype := r.ptype,
            valueStr := intToStr r.value }
          = (acc.1, acc.2 ++ importErrorLine r.name) := by
        simp only [importStep, hconv]
      rw [hstep, ih (acc.1, acc.2 ++ importErrorLine r.name)]
      have hcs : concatStrings (importErrorLine r.name ::
          (m.filter (fun x => !(recordAccepted x))).map (fun x => importErrorLine x.name))
          = importErrorLine r.name ++
            concatStrings ((m.filter (fun x => !(recordAccepted x))).map
              (fun x => importErrorLine x.name)) := by
        show (importErrorLine r.name :: _).foldl (fun x y => x ++ y) "" = _
        rw [List.foldl_cons, concatStrings_foldl]
        simp
      simp [List.filter_cons, hacc2, hcs, String.append_assoc]

/-- C9: exporting the mirror to the text serialization and importing it back
reproduces exactly the accepted (componentId, name, type, value) records in
order; every rejected record contributes its own message to the single
combined error string, and a rejected line never prevents the remaining lines
from being imported. -/
theorem c9_export_import_roundtrip :
    ∀ mirror : List ParamRecord,
      readParametersFromStream (writeParametersToStream mirror)
        = (mirror.filter recordAccepted,
           concatStrings ((mirror.filter (fun r => !(recordAccepted r))).map
             (fun r => importErrorLine r.name))) := by
  intro mirror
  unfold readParametersFromStream
  rw [import_export_foldl mirror ([], "")]
  simp

/-- C10: `getFact` returns the live fact exactly when `parameterExists`
confirms the key (resolving component id -1 to the default component); for a
missing parameter it is a fatal assertion failure, never a valid result. -/
theorem c10_getFact_contract :
    ∀ (st : FactStore) (componentId : Int) (name : String),
      (parameterExists st componentId name = true →
        ∃ v, assocLookup st.facts (actualComponentId st componentId, name) = some v
          ∧ getFact st componentId name
              = GetFactResult.fact (actualComponentId st componentId) name v)
    ∧ (parameterExists st componentId name = false →
        getFact st componentId name = GetFactResult.assertionFailed) := by
  intro st componentId name
  constructor
  · intro h
    unfold parameterExists at h
    cases hl : assocLookup st.facts (actualComponentId st componentId, name) with
    | none => rw [hl] at h; simp at h
    | some v =>
      refine ⟨v, rfl, ?_⟩
      unfold getFact
      rw [hl]
  · intro h
    unfold parameterExists at h
    cases hl : assocLookup st.facts (actualComponentId st componentId, name) with
    | none =>
      unfold getFact
      rw [hl]
    | some v => rw [hl] at h; simp at h

/-- Concrete evaluation of `c10_getFact_contract` on `sampleFactStore`:
component -1 resolves to the default component 1 and yields the live fact for
"SPEED", while requesting the missing "GONE" is the fatal assertion. -/
theorem c10_getFact_witness :
    getFact sampleFactStore (-1) "SPEED" = GetFactResult.fact 1 "SPEED" 12
  ∧ getFact sampleFactStore 1 "GONE" = GetFactResult.assertionFailed := by
  constructor
  · obtain ⟨v, hv, hg⟩ := (c10_getFact_contract sampleFactStore (-1) "SPEED").1 (by decide)
    rw [show actualComponentId sampleFactStore (-1) = 1 from by decide] at hv hg
    rw [show assocLookup sampleFactStore.facts (1, "SPEED") = some 12 from by decide] at hv
    injection hv with h12
    rw [← h12] at hg
    exact hg
  · exact (c10_getFact_contract sampleFactStore 1 "GONE").2 (by decide)

end QGC
